import Mathlib

/-!
Verification development for the `logx` structured-logging library.

The definitions below are a shallow embedding of the Go sources:
`rotator.go` (size-based rotating file writer), `logx.go` (configuration,
multi-handler fan-out), `redaction.go` (redaction handler and key set,
`SanitizeURL`), and `stack.go` (stack-attachment handler).  External
effects (the filesystem, `os.Rename`, `os.OpenFile`, `debug.Stack`)
are modelled as oracle inputs supplied through environment structures,
so every operation is a pure, executable Lean function of its state,
its arguments and the environment.
-/

/-! ## String helpers

Go strings are byte slices; the sources use `strings.ToLower`,
byte-wise string comparison (`sort.Strings`) and substring search.
The built-in Lean `String` comparison functions are not kernel
reducible, so we define executable char-level equivalents (faithful on
the ASCII file names and keys the library manipulates). -/

/-- Lower-case a single char, embedding ASCII case folding as performed
by `strings.ToLower` on the keys this library handles. -/
def lowerChar (c : Char) : Char :=
  if 65 ≤ c.toNat ∧ c.toNat ≤ 90 then Char.ofNat (c.toNat + 32) else c

/-- Embedding of `strings.ToLower`. -/
def toLowerStr (s : String) : String := ⟨s.data.map lowerChar⟩

/-- Byte-wise lexicographic comparison of char lists, the order used by
the Go `sort.Strings` order. -/
def charListLe : List Char → List Char → Bool
  | [], _ => true
  | _ :: _, [] => false
  | a :: as, b :: bs =>
    if a.toNat < b.toNat then true
    else if b.toNat < a.toNat then false
    else charListLe as bs

/-- Lexicographic `≤` on strings (the order of `sort.Strings`). -/
def strLeb (a b : String) : Bool := charListLe a.data b.data

/-- Substring test: `pat` occurs contiguously inside `s`. -/
def containsSub (s pat : String) : Bool :=
  (List.range (s.data.length + 1)).any
    (fun i => decide (((s.data.drop i).take pat.data.length) = pat.data))

theorem charListLe_total : ∀ a b, charListLe a b = true ∨ charListLe b a = true
  | [], _ => Or.inl rfl
  | _ :: _, [] => Or.inr rfl
  | a :: as, b :: bs => by
    by_cases h1 : a.toNat < b.toNat
    · exact Or.inl (by simp [charListLe, h1])
    · by_cases h2 : b.toNat < a.toNat
      · exact Or.inr (by simp [charListLe, h2])
      · have ih := charListLe_total as bs
        simpa [charListLe, h1, h2] using ih

theorem charListLe_trans :
    ∀ a b c, charListLe a b = true → charListLe b c = true → charListLe a c = true
  | [], _, _ => by intro _ _; rfl
  | _ :: _, [], _ => by intro h _; simp [charListLe] at h
  | _ :: _, _ :: _, [] => by intro _ h; simp [charListLe] at h
  | a :: as, b :: bs, c :: cs => by
    intro h1 h2
    simp only [charListLe] at h1 h2 ⊢
    split_ifs at h1 h2 ⊢ with g1 g2 g3 g4 g5 g6 <;>
      first
        | rfl
        | omega
        | exact charListLe_trans as bs cs h1 h2

theorem strLeb_total (a b : String) : strLeb a b = true ∨ strLeb b a = true :=
  charListLe_total a.data b.data

theorem strLeb_trans (a b c : String) :
    strLeb a b = true → strLeb b c = true → strLeb a c = true :=
  charListLe_trans a.data b.data c.data

/-- Insertion step of the sorting used to model `sort.Strings` and
`url.Values.Encode` (any comparison sort is observationally the same;
a structurally recursive one keeps the model executable). -/
def insertSorted {α : Type} (le : α → α → Bool) (x : α) : List α → List α
  | [] => [x]
  | y :: ys => if le x y then x :: y :: ys else y :: insertSorted le x ys

/-- Sort a list by the boolean comparison `le`. -/
def insertionSort {α : Type} (le : α → α → Bool) : List α → List α
  | [] => []
  | x :: xs => insertSorted le x (insertionSort le xs)

@[simp] theorem insertSorted_length {α : Type} (le : α → α → Bool) (x : α) :
    ∀ l : List α, (insertSorted le x l).length = l.length + 1
  | [] => rfl
  | y :: ys => by
    by_cases h : le x y = true <;>
      simp [insertSorted, h, insertSorted_length le x ys]

@[simp] theorem insertionSort_length {α : Type} (le : α → α → Bool) :
    ∀ l : List α, (insertionSort le l).length = l.length
  | [] => rfl
  | x :: xs => by
    simp [insertionSort, insertionSort_length le xs]

theorem insertSorted_perm {α : Type} (le : α → α → Bool) (x : α) :
    ∀ l : List α, (insertSorted le x l).Perm (x :: l)
  | [] => List.Perm.refl _
  | y :: ys => by
    by_cases h : le x y = true
    · simp [insertSorted, h]
    · simp only [insertSorted, h, if_false, Bool.false_eq_true]
      exact ((insertSorted_perm le x ys).cons y).trans (List.Perm.swap x y ys)

theorem insertionSort_perm {α : Type} (le : α → α → Bool) :
    ∀ l : List α, (insertionSort le l).Perm l
  | [] => List.Perm.refl _
  | x :: xs =>
    (insertSorted_perm le x (insertionSort le xs)).trans
      ((insertionSort_perm le xs).cons x)

theorem insertSorted_pairwise {α : Type} (le : α → α → Bool)
    (total : ∀ a b, le a b = true ∨ le b a = true)
    (htrans : ∀ a b c, le a b = true → le b c = true → le a c = true) (x : α) :
    ∀ l : List α, l.Pairwise (fun a b => le a b = true) →
      (insertSorted le x l).Pairwise (fun a b => le a b = true)
  | [], _ => by simp [insertSorted]
  | y :: ys, h => by
    rw [List.pairwise_cons] at h
    by_cases hxy : le x y = true
    · simp only [insertSorted, hxy, if_true]
      rw [List.pairwise_cons]
      refine ⟨?_, List.pairwise_cons.mpr h⟩
      intro z hz
      rcases List.mem_cons.mp hz with hz | hz
      · exact hz ▸ hxy
      · exact htrans x y z hxy (h.1 z hz)
    · simp only [insertSorted, hxy, if_false, Bool.false_eq_true]
      rw [List.pairwise_cons]
      constructor
      · intro z hz
        have hz2 := (insertSorted_perm le x ys).mem_iff.mp hz
        rcases List.mem_cons.mp hz2 with hz2 | hz2
        · rw [hz2]
          rcases total x y with ht | ht
          · exact absurd ht hxy
          · exact ht
        · exact h.1 z hz2
      · exact insertSorted_pairwise le total htrans x ys h.2

theorem insertionSort_pairwise {α : Type} (le : α → α → Bool)
    (total : ∀ a b, le a b = true ∨ le b a = true)
    (htrans : ∀ a b c, le a b = true → le b c = true → le a c = true) :
    ∀ l : List α, (insertionSort le l).Pairwise (fun a b => le a b = true)
  | [] => by simp [insertionSort]
  | x :: xs =>
    insertSorted_pairwise le total htrans x (insertionSort le xs)
      (insertionSort_pairwise le total htrans xs)

/-! ## Rotating file writer (`rotator.go`)

`fileRotator` owns the target path, an open file handle, the rotation
threshold `maxSize`, the retention count `backups`, and the running
byte counter `size`.  File handles are identified by numbers; the
results of the filesystem operations performed by `rotate`, `Write`
and `Close` (`os.Rename`, `os.OpenFile`, `File.Write`, `File.Close`,
`filepath.Glob`) are supplied by a `RotEnv` oracle. -/

/-- Go `error` values, `none` meaning `nil`. -/
abbrev GoError := String

/-- State of a `fileRotator` (rotator.go): the open handle is
`f = some id`, `f = none` after `Close`. -/
structure fileRotator where
  path : String
  f : Option Nat
  maxSize : Int
  backups : Int
  size : Int
deriving DecidableEq

/-- Oracle for the filesystem operations a rotator performs.
`renameErr` is the result of `os.Rename(path, rotated)`;
`reopenAfterRenameFail` is the result (handle id and `Stat` size) of
the recovery `os.OpenFile` in the rename-failure branch;
`reopenNew` is the result of the `os.OpenFile` after a successful
rename; `globEntries` is the `filepath.Glob(path + ".*")` listing;
`writeRes h n` is the `(n, err)` result of writing `n` bytes to handle
`h`; `closeRes h` is the result of `File.Close` on handle `h`. -/
structure RotEnv where
  renameErr : Option GoError
  reopenAfterRenameFail : Except GoError (Nat × Int)
  reopenNew : Except GoError Nat
  globEntries : List String
  writeRes : Option Nat → Nat → Nat × Option GoError
  closeRes : Nat → Option GoError

/-- Backup retention step of `fileRotator.rotate` (rotator.go lines
94-106): sort the glob entries (`sort.Strings`), and when the count
exceeds `backups` delete the leading (oldest) excess entries.  Returns
`(removed, kept)`. -/
def pruneBackups (backups : Int) (entries : List String) : List String × List String :=
  let sorted := insertionSort strLeb entries
  if (sorted.length : Int) > backups then
    (sorted.take (sorted.length - backups.toNat),
     sorted.drop (sorted.length - backups.toNat))
  else
    ([], sorted)

/-- Result of `fileRotator.rotate`: the returned error, the updated
rotator state, and — when the retention branch ran — the
`(removed, kept)` backup partition. -/
structure RotateOut where
  err : Option GoError
  st : fileRotator
  prune : Option (List String × List String)
deriving DecidableEq

/-- Embedding of `fileRotator.rotate` (rotator.go lines 68-109).  The
current handle is closed (result ignored by the source); then the
active file is renamed to a timestamped backup.  If the rename fails,
the original path is reopened and the rename error returned (reopen
failure returns that failure instead, leaving `f` and `size`
untouched).  On rename success, the path is reopened fresh, `size`
resets to 0, and when `backups > 0` old backups are pruned. -/
def fileRotator.rotate (env : RotEnv) (st : fileRotator) : RotateOut :=
  match env.renameErr with
  | some e =>
    match env.reopenAfterRenameFail with
    | .error e2 => { err := some e2, st := st, prune := none }
    | .ok fs =>
      { err := some e
        st := { st with f := some fs.1, size := fs.2 }
        prune := none }
  | none =>
    match env.reopenNew with
    | .error e2 => { err := some e2, st := st, prune := none }
    | .ok fid =>
      let st1 : fileRotator := { st with f := some fid, size := 0 }
      if st.backups > 0 then
        { err := none, st := st1, prune := some (pruneBackups st.backups env.globEntries) }
      else
        { err := none, st := st1, prune := none }

/-- Result of `fileRotator.Write`: the `(n, err)` pair returned to the
caller, the updated state, and whether rotation was attempted. -/
structure WriteOut where
  n : Nat
  err : Option GoError
  st : fileRotator
  rotationAttempted : Bool
deriving DecidableEq

/-- Embedding of `fileRotator.Write` (rotator.go lines 42-55): when
rotation is enabled and the tracked size plus the payload length
exceeds `maxSize`, `rotate` runs first (its error is ignored); the
write is then issued against whatever handle the rotator holds, the
size counter grows by the reported count, and the result of the write is
returned. -/
def fileRotator.Write (env : RotEnv) (st : fileRotator) (plen : Nat) : WriteOut :=
  let st1 :=
    if st.maxSize > 0 ∧ st.size + (plen : Int) > st.maxSize then
      (fileRotator.rotate env st).st
    else st
  let res := env.writeRes st1.f plen
  { n := res.1
    err := res.2
    st := { st1 with size := st1.size + (res.1 : Int) }
    rotationAttempted := decide (st.maxSize > 0 ∧ st.size + (plen : Int) > st.maxSize) }

/-- Events emitted by rotator teardown. -/
inductive RotEv where
  | closedHandle (h : Nat)
deriving DecidableEq

/-- Result of `fileRotator.Close`. -/
structure CloseOut where
  err : Option GoError
  st : fileRotator
  evs : List RotEv
deriving DecidableEq

/-- Embedding of `fileRotator.Close` (rotator.go lines 57-66): when a
handle is open it is closed (emitting the close event) and cleared;
otherwise the call is a no-op returning `nil`. -/
def fileRotator.Close (env : RotEnv) (st : fileRotator) : CloseOut :=
  match st.f with
  | some h => { err := env.closeRes h, st := { st with f := none }, evs := [RotEv.closedHandle h] }
  | none => { err := none, st := st, evs := [] }

/-! ## Helper lemmas about backup pruning -/

theorem pruneBackups_kept_length (b : Int) (entries : List String) (hb : 0 < b) :
    ((pruneBackups b entries).2).length ≤ b.toNat := by
  by_cases hgt : b < (entries.length : Int)
  · simp [pruneBackups, hgt]
    omega
  · simp [pruneBackups, hgt]
    omega

theorem pruneBackups_append_perm (b : Int) (entries : List String) :
    ((pruneBackups b entries).1 ++ (pruneBackups b entries).2).Perm entries := by
  by_cases hgt : b < (entries.length : Int)
  · simpa [pruneBackups, hgt, List.take_append_drop] using insertionSort_perm strLeb entries
  · simpa [pruneBackups, hgt] using insertionSort_perm strLeb entries

theorem pruneBackups_removed_le_kept (b : Int) (entries : List String) :
    ∀ x ∈ (pruneBackups b entries).1, ∀ y ∈ (pruneBackups b entries).2,
      strLeb x y = true := by
  have hsorted : (insertionSort strLeb entries).Pairwise (fun x y => strLeb x y = true) :=
    insertionSort_pairwise strLeb strLeb_total strLeb_trans entries
  by_cases hgt : b < (entries.length : Int)
  · have h2 := hsorted
    rw [← List.take_append_drop (entries.length - b.toNat)
        (insertionSort strLeb entries)] at h2
    have hcross := (List.pairwise_append.mp h2).2.2
    intro x hx y hy
    simp [pruneBackups, hgt] at hx hy
    exact hcross x hx y hy
  · intro x hx
    simp [pruneBackups, hgt] at hx

/-! ## Claim theorems for the rotating writer -/

/-- C1: for every `Write` on a rotator with `maxSize > 0`, if the
tracked size plus the payload length exceeds `maxSize` then rotation is
attempted before the write, and regardless of whether rotation
succeeded the write is issued against the handle the rotator holds
after the rotation attempt, its `(n, err)` result being what `Write`
returns. -/
theorem rotator_write_rotation_before_write (env : RotEnv) (st : fileRotator) (plen : Nat)
    (hmax : st.maxSize > 0) (hover : st.size + (plen : Int) > st.maxSize) :
    (fileRotator.Write env st plen).rotationAttempted = true ∧
    (fileRotator.Write env st plen).n =
      (env.writeRes (fileRotator.rotate env st).st.f plen).1 ∧
    (fileRotator.Write env st plen).err =
      (env.writeRes (fileRotator.rotate env st).st.f plen).2 := by
  unfold fileRotator.Write
  simp [hmax, hover]

/-- Rotator whose rotation is doomed: the rename fails and so does the
recovery reopen, so the pre-rotation handle stays in place. -/
def envC1 : RotEnv :=
  { renameErr := some "rename failed"
    reopenAfterRenameFail := Except.error "reopen failed"
    reopenNew := Except.error "unused"
    globEntries := []
    writeRes := fun _ n => (n, none)
    closeRes := fun _ => none }

/-- Rotator state about to overflow its 100-byte budget. -/
def stC1 : fileRotator :=
  { path := "app.log", f := some 7, maxSize := 100, backups := 2, size := 95 }

theorem rotator_write_rotation_before_write_witness :
    (stC1.maxSize > 0 ∧ stC1.size + ((10 : Nat) : Int) > stC1.maxSize) ∧
    ((fileRotator.Write envC1 stC1 10).rotationAttempted = true ∧
      (fileRotator.Write envC1 stC1 10).n =
        (envC1.writeRes (fileRotator.rotate envC1 stC1).st.f 10).1 ∧
      (fileRotator.Write envC1 stC1 10).err =
        (envC1.writeRes (fileRotator.rotate envC1 stC1).st.f 10).2) :=
  ⟨⟨by decide, by decide⟩,
    rotator_write_rotation_before_write envC1 stC1 10 (by decide) (by decide)⟩

/-- C2: after every successful rotation on a rotator with a positive
backup limit, the retention step partitions the files matching
`<path>.*` so that the kept set has at most `backups` entries, nothing
outside the partition is touched (the partition is a permutation of
the glob listing), and every removed entry is lexicographically at
most every kept entry — the oldest entries beyond the limit are the
ones deleted. -/
theorem rotate_prunes_backups (env : RotEnv) (st : fileRotator)
    (hb : 0 < st.backups) (hok : (fileRotator.rotate env st).err = none) :
    ∃ removed kept,
      (fileRotator.rotate env st).prune = some (removed, kept) ∧
      kept.length ≤ st.backups.toNat ∧
      (removed ++ kept).Perm env.globEntries ∧
      ∀ x ∈ removed, ∀ y ∈ kept, strLeb x y = true := by
  cases hren : env.renameErr with
  | some e =>
    cases hre : env.reopenAfterRenameFail <;>
      simp [fileRotator.rotate, hren, hre] at hok
  | none =>
    cases hre : env.reopenNew with
    | error e2 => simp [fileRotator.rotate, hren, hre] at hok
    | ok fid =>
      refine ⟨(pruneBackups st.backups env.globEntries).1,
        (pruneBackups st.backups env.globEntries).2, ?_,
        pruneBackups_kept_length st.backups env.globEntries hb,
        pruneBackups_append_perm st.backups env.globEntries,
        pruneBackups_removed_le_kept st.backups env.globEntries⟩
      simp [fileRotator.rotate, hren, hre, hb]

/-- Environment for a successful rotation holding four backups. -/
def envC2 : RotEnv :=
  { renameErr := none
    reopenAfterRenameFail := Except.error "unused"
    reopenNew := Except.ok 9
    globEntries := ["app.log.20240103T000000", "app.log.20240101T000000",
                    "app.log.20240104T000000", "app.log.20240102T000000"]
    writeRes := fun _ n => (n, none)
    closeRes := fun _ => none }

theorem rotate_prunes_backups_witness :
    (0 < stC1.backups ∧ (fileRotator.rotate envC2 stC1).err = none) ∧
    (∃ removed kept,
      (fileRotator.rotate envC2 stC1).prune = some (removed, kept) ∧
      kept.length ≤ stC1.backups.toNat ∧
      (removed ++ kept).Perm envC2.globEntries ∧
      ∀ x ∈ removed, ∀ y ∈ kept, strLeb x y = true) :=
  ⟨⟨by decide, by rfl⟩,
    rotate_prunes_backups envC2 stC1 (by decide) (by rfl)⟩

/-- C8: `Close` on a rotator with an open handle closes that handle
exactly once; a second `Close` returns no error, changes nothing and
closes nothing (idempotent close). -/
theorem rotator_close_idempotent (env1 env2 : RotEnv) (st : fileRotator) (h : Nat)
    (hf : st.f = some h) :
    (fileRotator.Close env1 st).evs = [RotEv.closedHandle h] ∧
    (fileRotator.Close env2 (fileRotator.Close env1 st).st).err = none ∧
    (fileRotator.Close env2 (fileRotator.Close env1 st).st).evs = [] ∧
    (fileRotator.Close env2 (fileRotator.Close env1 st).st).st =
      (fileRotator.Close env1 st).st ∧
    ((fileRotator.Close env1 st).evs ++
        (fileRotator.Close env2 (fileRotator.Close env1 st).st).evs).count
      (RotEv.closedHandle h) = 1 := by
  simp [fileRotator.Close, hf]

theorem rotator_close_idempotent_witness :
    stC1.f = some 7 ∧
    ((fileRotator.Close envC1 stC1).evs = [RotEv.closedHandle 7] ∧
      (fileRotator.Close envC2 (fileRotator.Close envC1 stC1).st).err = none ∧
      (fileRotator.Close envC2 (fileRotator.Close envC1 stC1).st).evs = [] ∧
      (fileRotator.Close envC2 (fileRotator.Close envC1 stC1).st).st =
        (fileRotator.Close envC1 stC1).st ∧
      ((fileRotator.Close envC1 stC1).evs ++
          (fileRotator.Close envC2 (fileRotator.Close envC1 stC1).st).evs).count
        (RotEv.closedHandle 7) = 1) :=
  ⟨by decide, rotator_close_idempotent envC1 envC2 stC1 7 (by decide)⟩

/-! ## Log records (`log/slog` model)

A `slog.Record` carries a timestamp, a level (`slog.Level` is an
integer: Debug = -4, Info = 0, Warn = 4, Error = 8), a message, a
program counter and an ordered attribute list.  Attribute values are
modelled by `Value`; captured stack traces are byte lists
(`debug.Stack` returns `[]byte`). -/

/-- Attribute value of a log record. -/
inductive Value where
  | str (s : String)
  | bytes (b : List Nat)
  | vint (i : Int)
deriving DecidableEq

/-- A `slog.Record`: timestamp, level, message, pc, ordered attrs. -/
structure Record where
  time : Nat
  level : Int
  msg : String
  pc : Nat
  attrs : List (String × Value)
deriving DecidableEq

/-! ## Handler chain

`slog.Handler` values built by `buildLogger` (logx.go): console and
file text/JSON handlers, the stderr fallback, the fan-out
`multiHandler`, and the `stackHandler` / `redactionHandler`
decorators.  Terminal file handlers carry their writer. -/

/-- A closable output sink: a caller-supplied `io.WriteCloser`, a
`*fileRotator`, or a plain `*os.File`. -/
inductive WriteCloser where
  | external (id : Nat)
  | rotator (id : Nat)
  | file (id : Nat)
deriving DecidableEq

/-- Handler values built by `buildLogger`. -/
inductive SHandler where
  | consoleText (color : Bool)
  | consoleJSON (color : Bool)
  | fileText (w : WriteCloser)
  | fileJSON (w : WriteCloser)
  | stderrFallback
  | multiH (hs : List SHandler)
  | stackH (next : SHandler) (level : Int)
  | redactH (next : SHandler)

/-! ## Stack-attachment handler (`stack.go`) -/

/-- Default of the `maxStackBytes` package variable (stack.go):
64 KiB. -/
def defaultMaxStackBytes : Nat := 64 * 1024

/-- Embedding of `SetStackMaxBytes` (stack.go): non-positive arguments
are ignored, otherwise the cap is replaced. -/
def SetStackMaxBytes (cur : Nat) (n : Int) : Nat :=
  if n ≤ 0 then cur else n.toNat

/-- Embedding of `newStackHandler` (stack.go): a zero stack level
returns the child handler itself, otherwise the child is wrapped. -/
def newStackHandler (next : SHandler) (level : Int) : SHandler :=
  if level = 0 then next else SHandler.stackH next level

/-- Stack truncation inside `stackHandler.Handle` (stack.go): a
captured stack longer than the cap is cut to the cap. -/
def truncStack (stack : List Nat) (maxB : Nat) : List Nat :=
  if stack.length > maxB then stack.take maxB else stack

/-- Embedding of `stackHandler.Handle` (stack.go): the record this
handler forwards to its child.  `stack` is the byte capture returned
by `debug.Stack()` at the call site and `maxB` the current
`maxStackBytes`.  At or above the configured level the record is
cloned and gains a `"stack"` attribute holding the truncated capture;
below the level the record is forwarded unchanged. -/
def stackHandler.Handle (stack : List Nat) (maxB : Nat) (level : Int) (r : Record) : Record :=
  if r.level ≥ level then
    { r with attrs := r.attrs ++ [("stack", Value.bytes (truncStack stack maxB))] }
  else r

/-! ## Redaction key set and handler (`redaction.go`) -/

/-- Embedding of `SetRedactedKeys` (redaction.go lines 42-49): each
argument is lower-cased and inserted into the existing key set (a Go
map, modelled as a duplicate-free list). -/
def SetRedactedKeys (s : List String) (ks : List String) : List String :=
  ks.foldl (fun acc k => if toLowerStr k ∈ acc then acc else acc ++ [toLowerStr k]) s

/-- Embedding of `AddRedactedKeys` (redaction.go lines 51-54), which
just calls `SetRedactedKeys`. -/
def AddRedactedKeys (s : List String) (ks : List String) : List String :=
  SetRedactedKeys s ks

/-- Embedding of `ClearRedactedKeys` (redaction.go lines 56-62): the
key set becomes empty. -/
def ClearRedactedKeys (_s : List String) : List String := []

/-- Embedding of `redactionHandler.Handle` (redaction.go lines
86-115): the record forwarded to the child.  With an empty snapshot
the record passes through untouched; otherwise a fresh record with the
same time, level, message and pc carries the attribute list in which
every attribute whose lower-cased key is in the set has its value
replaced by `"REDACTED"`. -/
def redactionHandler.Handle (keys : List String) (r : Record) : Record :=
  if keys = [] then r
  else
    { r with
      attrs := r.attrs.map (fun a =>
        if toLowerStr a.1 ∈ keys then (a.1, Value.str "REDACTED") else a) }

/-! ## Fan-out handler (`logx.go` `multiHandler`) -/

/-- Embedding of `multiHandler.Handle` (logx.go lines 767-775): every
child handler is invoked on the record in order; the first non-nil
error is remembered and returned.  A child is modelled by the error it
returns for a record; the second component is the trace of per-child
results, one entry per invoked child in invocation order. -/
def multiHandler.Handle (hs : List (Record → Option GoError)) (r : Record) :
    Option GoError × List (Option GoError) :=
  hs.foldl
    (fun acc h =>
      let e := h r
      (match acc.1, e with
       | none, some err => some err
       | first, _ => first,
       acc.2 ++ [e]))
    (none, [])

/-- First non-nil element of a result list, as the spec describes the
returned error of the fan-out. -/
def firstError (results : List (Option GoError)) : Option GoError :=
  (results.filterMap id).head?

/-- First-error accumulator semantics of the fan-out loop. -/
def orFirst : Option GoError → Option GoError → Option GoError
  | some e, _ => some e
  | none, x => x

theorem multiHandle_foldl (r : Record) :
    ∀ (hs : List (Record → Option GoError)) (a1 : Option GoError)
      (a2 : List (Option GoError)),
      List.foldl
        (fun acc h =>
          let e := h r
          (match acc.1, e with
           | none, some err => some err
           | first, _ => first,
           acc.2 ++ [e]))
        (a1, a2) hs =
      (orFirst a1 (firstError (hs.map (fun h => h r))),
       a2 ++ hs.map (fun h => h r)) := by
  intro hs
  induction hs with
  | nil =>
    intro a1 a2
    cases a1 <;> simp [orFirst, firstError]
  | cons h hs ih =>
    intro a1 a2
    simp only [List.foldl_cons]
    rw [ih]
    cases a1 with
    | some e => cases hh : h r <;> simp [orFirst, firstError, hh]
    | none => cases hh : h r <;> simp [orFirst, firstError, hh]

/-- C3: the fan-out handler invokes the handle of every child on the record
in order regardless of earlier failures — the invocation trace is
exactly the per-child result list — and returns the first error
encountered (nil when no child errs); in particular with children
`[A (fails), B (succeeds)]`, B is still invoked and the error of A is
returned. -/
theorem multiHandler_fanout_first_error (hs : List (Record → Option GoError)) (r : Record) :
    (multiHandler.Handle hs r).2 = hs.map (fun h => h r) ∧
    (multiHandler.Handle hs r).1 = firstError (hs.map (fun h => h r)) ∧
    (∀ eA : GoError,
      (multiHandler.Handle [fun _ => some eA, fun _ => none] r).1 = some eA ∧
      (multiHandler.Handle [fun _ => some eA, fun _ => none] r).2 = [some eA, none]) := by
  refine ⟨?_, ?_, ?_⟩
  · simp [multiHandler.Handle, multiHandle_foldl]
  · simp [multiHandler.Handle, multiHandle_foldl, orFirst]
  · intro eA
    exact ⟨rfl, rfl⟩

/-- C4: with a nonzero threshold, a record at or above the threshold
is forwarded with one added attribute keyed `"stack"` holding the
captured stack truncated to the configured cap (64 KiB by default,
and the attached bytes never exceed the cap), while a record below the
threshold is forwarded unchanged, gaining nothing; and constructing
the handler with threshold zero returns the child handler itself. -/
theorem stack_handler_threshold (next : SHandler) (stack : List Nat) (maxB : Nat)
    (level : Int) (r : Record) :
    newStackHandler next 0 = next ∧
    defaultMaxStackBytes = 64 * 1024 ∧
    (truncStack stack maxB).length ≤ maxB ∧
    (r.level ≥ level →
      stackHandler.Handle stack maxB level r =
        { r with attrs := r.attrs ++ [("stack", Value.bytes (truncStack stack maxB))] }) ∧
    (r.level < level → stackHandler.Handle stack maxB level r = r) := by
  refine ⟨rfl, rfl, ?_, ?_, ?_⟩
  · unfold truncStack
    split <;> (try simp only [List.length_take]) <;> omega
  · intro hge
    simp [stackHandler.Handle, hge]
  · intro hlt
    simp [stackHandler.Handle, not_le.mpr hlt]

theorem stack_handler_threshold_witness :
    (newStackHandler SHandler.stderrFallback 0 = SHandler.stderrFallback ∧
      defaultMaxStackBytes = 64 * 1024 ∧
      (truncStack [1, 2, 3] 2).length ≤ 2) ∧
    ((8 : Int) ≥ 4 ∧
      stackHandler.Handle [1, 2, 3] 2 4
          { time := 0, level := 8, msg := "boom", pc := 0, attrs := [] } =
        { time := 0, level := 8, msg := "boom", pc := 0,
          attrs := [("stack", Value.bytes [1, 2])] }) ∧
    ((0 : Int) < 4 ∧
      stackHandler.Handle [1, 2, 3] 2 4
          { time := 0, level := 0, msg := "ok", pc := 0, attrs := [] } =
        { time := 0, level := 0, msg := "ok", pc := 0, attrs := [] }) :=
  ⟨⟨(stack_handler_threshold SHandler.stderrFallback [1, 2, 3] 2 4
        { time := 0, level := 8, msg := "boom", pc := 0, attrs := [] }).1,
    (stack_handler_threshold SHandler.stderrFallback [1, 2, 3] 2 4
        { time := 0, level := 8, msg := "boom", pc := 0, attrs := [] }).2.1,
    (stack_handler_threshold SHandler.stderrFallback [1, 2, 3] 2 4
        { time := 0, level := 8, msg := "boom", pc := 0, attrs := [] }).2.2.1⟩,
   ⟨by decide,
    (stack_handler_threshold SHandler.stderrFallback [1, 2, 3] 2 4
        { time := 0, level := 8, msg := "boom", pc := 0, attrs := [] }).2.2.2.1
      (by decide)⟩,
   ⟨by decide,
    (stack_handler_threshold SHandler.stderrFallback [1, 2, 3] 2 4
        { time := 0, level := 0, msg := "ok", pc := 0, attrs := [] }).2.2.2.2
      (by decide)⟩⟩

/-- C5: with an empty key set the redaction handler forwards the
record itself; otherwise it forwards a new record with identical
timestamp, level and message whose attribute list has the same length
and, position by position, replaces the value of every attribute whose
lower-cased key is in the set by the literal `"REDACTED"` while
leaving every other attribute untouched; setting key `"Password"`
redacts an attribute keyed `"password"`. -/
theorem redaction_handler_spec (keys : List String) (r : Record) :
    (keys = [] → redactionHandler.Handle keys r = r) ∧
    (keys ≠ [] →
      (redactionHandler.Handle keys r).time = r.time ∧
      (redactionHandler.Handle keys r).level = r.level ∧
      (redactionHandler.Handle keys r).msg = r.msg ∧
      (redactionHandler.Handle keys r).attrs.length = r.attrs.length ∧
      ∀ i : Nat,
        ((redactionHandler.Handle keys r).attrs)[i]? =
          (r.attrs[i]?).map (fun a =>
            if toLowerStr a.1 ∈ keys then (a.1, Value.str "REDACTED") else a)) ∧
    (∀ (v : Value) (t p : Nat) (l : Int) (m : String),
      redactionHandler.Handle (SetRedactedKeys [] ["Password"])
          { time := t, level := l, msg := m, pc := p, attrs := [("password", v)] } =
        { time := t, level := l, msg := m, pc := p,
          attrs := [("password", Value.str "REDACTED")] }) := by
  refine ⟨?_, ?_, ?_⟩
  · intro h
    simp [redactionHandler.Handle, h]
  · intro h
    refine ⟨?_, ?_, ?_, ?_, ?_⟩ <;>
      simp [redactionHandler.Handle, h, List.getElem?_map]
  · intro v t p l m
    rfl

theorem redaction_handler_spec_witness :
    (([] : List String) = [] →
      redactionHandler.Handle []
          { time := 1, level := 0, msg := "m", pc := 0,
            attrs := [("password", Value.str "hunter2")] } =
        { time := 1, level := 0, msg := "m", pc := 0,
          attrs := [("password", Value.str "hunter2")] }) ∧
    redactionHandler.Handle (SetRedactedKeys [] ["Password"])
        { time := 1, level := 0, msg := "m", pc := 0,
          attrs := [("password", Value.str "hunter2")] } =
      { time := 1, level := 0, msg := "m", pc := 0,
        attrs := [("password", Value.str "REDACTED")] } :=
  ⟨(redaction_handler_spec []
      { time := 1, level := 0, msg := "m", pc := 0,
        attrs := [("password", Value.str "hunter2")] }).1,
   (redaction_handler_spec (SetRedactedKeys [] ["Password"])
      { time := 1, level := 0, msg := "m", pc := 0,
        attrs := [("password", Value.str "hunter2")] }).2.2
     (Value.str "hunter2") 1 0 0 "m"⟩

theorem setRedactedKeys_mem :
    ∀ (ks s : List String) (x : String),
      x ∈ SetRedactedKeys s ks ↔ x ∈ s ∨ x ∈ ks.map toLowerStr := by
  intro ks
  induction ks with
  | nil => intro s x; simp [SetRedactedKeys]
  | cons k ks ih =>
    intro s x
    have step : SetRedactedKeys s (k :: ks) =
        SetRedactedKeys
          (if toLowerStr k ∈ s then s else s ++ [toLowerStr k]) ks := by
      simp [SetRedactedKeys]
    rw [step, ih]
    by_cases hk : toLowerStr k ∈ s
    · simp only [if_pos hk, List.map_cons, List.mem_cons]
      constructor
      · rintro (hx | hx)
        · exact Or.inl hx
        · exact Or.inr (Or.inr hx)
      · rintro (hx | hx | hx)
        · exact Or.inl hx
        · exact Or.inl (hx ▸ hk)
        · exact Or.inr hx
    · simp only [if_neg hk, List.mem_append, List.mem_singleton, List.map_cons,
        List.mem_cons]
      tauto

/-- C10: the redacted-key set only grows under `SetRedactedKeys`: the
membership in the result is exactly the union of the previous set and the
lower-cased arguments, so no previously configured key is ever
removed; `AddRedactedKeys` is the identical operation, and
`ClearRedactedKeys` is the only operation that shrinks the set,
emptying it. -/
theorem redacted_keys_additive (s ks : List String) (x : String) :
    (x ∈ SetRedactedKeys s ks ↔ x ∈ s ∨ x ∈ ks.map toLowerStr) ∧
    (x ∈ s → x ∈ SetRedactedKeys s ks) ∧
    AddRedactedKeys s ks = SetRedactedKeys s ks ∧
    ClearRedactedKeys s = [] := by
  refine ⟨setRedactedKeys_mem ks s x, ?_, rfl, rfl⟩
  intro hx
  exact (setRedactedKeys_mem ks s x).mpr (Or.inl hx)

theorem redacted_keys_additive_witness :
    ("token" ∈ SetRedactedKeys ["token"] ["Password"] ↔
      "token" ∈ ["token"] ∨ "token" ∈ ["Password"].map toLowerStr) ∧
    ("token" ∈ (["token"] : List String) →
      "token" ∈ SetRedactedKeys ["token"] ["Password"]) ∧
    AddRedactedKeys ["token"] ["Password"] = SetRedactedKeys ["token"] ["Password"] ∧
    ClearRedactedKeys ["token"] = [] :=
  redacted_keys_additive ["token"] ["Password"] "token"

/-! ## Configuration controller (`logx.go`)

`Config`, `buildLogger` and `Configure` from logx.go.  The results of
`detectColor`, `newFileRotator` and `os.OpenFile` during the build are
oracle inputs (`BuildEnv`); the swap and the deferred close of the
previous sink are recorded as events. -/

/-- Embedding of `Config` (logx.go): handler options that do not shape
the handler chain (`AddSource`) are carried but unused by the model. -/
structure Config where
  Level : Int
  Console : Bool
  FilePath : String
  JSONFile : Bool
  AddSource : Bool
  StacktraceLevel : Int
  FileMaxSizeBytes : Int
  FileMaxBackups : Int
  ConsoleJSON : Bool
  FileWriter : Option WriteCloser

/-- Oracle for the effects of `buildLogger`: the `detectColor` result,
the result of `newFileRotator` and of the plain `os.OpenFile`. -/
structure BuildEnv where
  color : Bool
  openRotator : Except GoError Nat
  openFile : Except GoError Nat

/-- Result of `buildLogger`: the wrapped handler, the closable file
writer (if one was built) and the build error (if any). -/
structure BuildOut where
  handler : SHandler
  fileWriter : Option WriteCloser
  err : Option GoError

/-- Embedding of `buildLogger` (logx.go lines 507-582): console
handler first, then the file sink — a caller-supplied writer, a
rotator when `FileMaxSizeBytes > 0`, or a plain file; a failed open
records the error and leaves the writer nil.  With no handlers at all
a stderr text handler is the fallback.  A single handler is used
directly, several are fanned out, and the result is wrapped by the
stack handler then the redaction handler. -/
def buildLogger (env : BuildEnv) (cfg : Config) : BuildOut :=
  let consoleHs : List SHandler :=
    if cfg.Console then
      [if cfg.ConsoleJSON then SHandler.consoleJSON env.color
       else SHandler.consoleText env.color]
    else []
  let fw : Option WriteCloser × Option GoError :=
    match cfg.FileWriter with
    | some w => (some w, none)
    | none =>
      if cfg.FilePath ≠ "" then
        if cfg.FileMaxSizeBytes > 0 then
          match env.openRotator with
          | .ok rid => (some (WriteCloser.rotator rid), none)
          | .error e => (none, some e)
        else
          match env.openFile with
          | .ok fid => (some (WriteCloser.file fid), none)
          | .error e => (none, some e)
      else (none, none)
  let fileHs : List SHandler :=
    match fw.1 with
    | some w => [if cfg.JSONFile then SHandler.fileJSON w else SHandler.fileText w]
    | none => []
  let handlers := consoleHs ++ fileHs
  let handlers := if handlers.isEmpty then [SHandler.stderrFallback] else handlers
  let base : SHandler :=
    match handlers with
    | [h] => h
    | hs => SHandler.multiH hs
  { handler := SHandler.redactH (newStackHandler base cfg.StacktraceLevel)
    fileWriter := fw.1
    err := fw.2 }

/-- Process-wide logger state (logx.go globals `logger`,
`currentCloser`, `levelVar`). -/
structure GState where
  logger : Option SHandler
  currentCloser : Option WriteCloser
  level : Int

/-- Observable events of a `Configure` call: the under-lock swap of
the global logger/closer pair, and the post-swap close of the
previous sink. -/
inductive CEv where
  | swapEv
  | closeEv (w : WriteCloser)

/-- Result of `Configure`. -/
structure ConfigureOut where
  err : Option GoError
  st : GState
  evs : List CEv

/-- Embedding of `Configure` (logx.go lines 489-505): build the new
logger (no global mutation), then under the lock swap in the new
logger, closer and level; after releasing the lock close the previous
closer if there was one.  The build error is returned. -/
def Configure (env : BuildEnv) (st : GState) (cfg : Config) : ConfigureOut :=
  let b := buildLogger env cfg
  let prev := st.currentCloser
  { err := b.err
    st := { logger := some b.handler, currentCloser := b.fileWriter, level := cfg.Level }
    evs := [CEv.swapEv] ++
      (match prev with
       | some w => [CEv.closeEv w]
       | none => []) }

/-- The file sink of `cfg` fails to open with error `e` under `env`. -/
def fileOpenFails (env : BuildEnv) (cfg : Config) (e : GoError) : Prop :=
  if cfg.FileMaxSizeBytes > 0 then env.openRotator = Except.error e
  else env.openFile = Except.error e

/-- C6: when the file sink of the configuration fails to open, `Configure`
returns that error to the caller but still installs a non-nil logger;
with no console sink the installed chain falls back to the stderr text
handler (wrapped by the usual stack and redaction decorators). -/
theorem configure_failure_installs_fallback (env : BuildEnv) (st : GState)
    (cfg : Config) (e : GoError)
    (hfw : cfg.FileWriter = none) (hfp : cfg.FilePath ≠ "")
    (hfail : fileOpenFails env cfg e) :
    (Configure env st cfg).err = some e ∧
    ((Configure env st cfg).st.logger).isSome = true ∧
    (cfg.Console = false →
      (Configure env st cfg).st.logger =
        some (SHandler.redactH
          (newStackHandler SHandler.stderrFallback cfg.StacktraceLevel))) := by
  unfold fileOpenFails at hfail
  by_cases hms : cfg.FileMaxSizeBytes > 0
  · rw [if_pos hms] at hfail
    refine ⟨?_, by simp [Configure], ?_⟩
    · simp [Configure, buildLogger, hfw, hfp, hms, hfail]
    · intro hc
      simp [Configure, buildLogger, hfw, hfp, hms, hfail, hc]
  · rw [if_neg hms] at hfail
    refine ⟨?_, by simp [Configure], ?_⟩
    · simp [Configure, buildLogger, hfw, hfp, hms, hfail]
    · intro hc
      simp [Configure, buildLogger, hfw, hfp, hms, hfail, hc]

/-- Configuration naming a file sink and nothing else. -/
def cfgC6 : Config :=
  { Level := 0, Console := false, FilePath := "app.log", JSONFile := false
    AddSource := false, StacktraceLevel := 0, FileMaxSizeBytes := 0
    FileMaxBackups := 0, ConsoleJSON := false, FileWriter := none }

/-- Build environment whose file open fails. -/
def envC6 : BuildEnv :=
  { color := false
    openRotator := Except.error "cannot open rotator"
    openFile := Except.error "permission denied" }

/-- Initial unconfigured state. -/
def gs0 : GState := { logger := none, currentCloser := none, level := 0 }

theorem configure_failure_installs_fallback_witness :
    (cfgC6.FileWriter = none ∧ cfgC6.FilePath ≠ "" ∧
      fileOpenFails envC6 cfgC6 "permission denied") ∧
    ((Configure envC6 gs0 cfgC6).err = some "permission denied" ∧
      ((Configure envC6 gs0 cfgC6).st.logger).isSome = true ∧
      (cfgC6.Console = false →
        (Configure envC6 gs0 cfgC6).st.logger =
          some (SHandler.redactH
            (newStackHandler SHandler.stderrFallback cfgC6.StacktraceLevel)))) :=
  ⟨⟨rfl, by decide, by simp [fileOpenFails, envC6, cfgC6]⟩,
    configure_failure_installs_fallback envC6 gs0 cfgC6 "permission denied"
      rfl (by decide) (by simp [fileOpenFails, envC6, cfgC6])⟩

/-- C7: across two successive `Configure` calls starting with no
current sink, the sink installed by the first call is closed exactly
once, by the second call, and only after the swap event of the second call
— the first call closes nothing, and the event trace of the second call is
the swap followed by the close of the sink of the first call. -/
theorem configure_closes_previous_sink_once (env1 env2 : BuildEnv) (st0 : GState)
    (cfg1 cfg2 : Config) (w1 : WriteCloser)
    (h0 : st0.currentCloser = none)
    (hb : (buildLogger env1 cfg1).fileWriter = some w1) :
    (Configure env1 st0 cfg1).evs = [CEv.swapEv] ∧
    (Configure env2 (Configure env1 st0 cfg1).st cfg2).evs =
      [CEv.swapEv, CEv.closeEv w1] ∧
    ((Configure env1 st0 cfg1).evs ++
        (Configure env2 (Configure env1 st0 cfg1).st cfg2).evs).countP
      (fun ev => match ev with
                 | CEv.closeEv w => decide (w = w1)
                 | CEv.swapEv => false) = 1 := by
  refine ⟨by simp [Configure, h0], by simp [Configure, hb], ?_⟩
  simp [Configure, h0, hb, List.countP_cons]

/-- First configuration: a caller-supplied sink. -/
def cfgC7a : Config :=
  { Level := 0, Console := false, FilePath := "", JSONFile := false
    AddSource := false, StacktraceLevel := 0, FileMaxSizeBytes := 0
    FileMaxBackups := 0, ConsoleJSON := false
    FileWriter := some (WriteCloser.external 1) }

/-- Second configuration: a different caller-supplied sink. -/
def cfgC7b : Config :=
  { Level := 0, Console := false, FilePath := "", JSONFile := false
    AddSource := false, StacktraceLevel := 0, FileMaxSizeBytes := 0
    FileMaxBackups := 0, ConsoleJSON := false
    FileWriter := some (WriteCloser.external 2) }

theorem configure_closes_previous_sink_once_witness :
    (gs0.currentCloser = none ∧
      (buildLogger envC6 cfgC7a).fileWriter = some (WriteCloser.external 1)) ∧
    ((Configure envC6 gs0 cfgC7a).evs = [CEv.swapEv] ∧
      (Configure envC6 (Configure envC6 gs0 cfgC7a).st cfgC7b).evs =
        [CEv.swapEv, CEv.closeEv (WriteCloser.external 1)] ∧
      ((Configure envC6 gs0 cfgC7a).evs ++
          (Configure envC6 (Configure envC6 gs0 cfgC7a).st cfgC7b).evs).countP
        (fun ev => match ev with
                   | CEv.closeEv w => decide (w = WriteCloser.external 1)
                   | CEv.swapEv => false) = 1) :=
  ⟨⟨rfl, rfl⟩,
    configure_closes_previous_sink_once envC6 envC6 gs0 cfgC7a cfgC7b
      (WriteCloser.external 1) rfl rfl⟩

/-! ## URL sanitisation (`redaction.go` `SanitizeURL`)

`SanitizeURL` parses the query of the URL, lower-cases each parameter name
and, when it equals one of a fixed built-in list, replaces that
values of that parameter with `"REDACTED"`, then re-encodes the query
(sorted by key, as `url.Values.Encode` does) and reconstructs the URL
string.  A URL is modelled as its non-query part plus the parsed query
(`url.Values`): an association list from parameter name to value list.
Percent-escaping is not modelled; the names and values involved are
URL-safe. -/

/-- The fixed built-in list of sensitive parameter names matched by
the `switch` in `SanitizeURL` (redaction.go lines 22-25). -/
def sanitizedParamNames : List String := ["apikey", "password", "token", "key"]

/-- A parsed URL: everything before the `?`, plus the query values. -/
structure URL where
  base : String
  query : List (String × List String)

/-- The query rewrite loop of `SanitizeURL` (redaction.go lines
20-26): every parameter whose lower-cased name is in the fixed list
has its values replaced by the single value `"REDACTED"` (`q.Set`). -/
def sanitizeQuery (q : List (String × List String)) : List (String × List String) :=
  q.map (fun kv =>
    if toLowerStr kv.1 ∈ sanitizedParamNames then (kv.1, ["REDACTED"]) else kv)

/-- `url.Values.Encode`: parameters sorted by key, each value emitted
as `key=value`, joined with `&`. -/
def encodeQuery (q : List (String × List String)) : String :=
  String.intercalate "&"
    ((insertionSort (fun a b => strLeb a.1 b.1) q).flatMap
      (fun kv => kv.2.map (fun v => kv.1 ++ "=" ++ v)))

/-- Embedding of `SanitizeURL` (redaction.go lines 12-30): a nil URL
yields `""`; otherwise the sanitised query is re-encoded and the URL
string reconstructed (no `?` when the query is empty). -/
def SanitizeURL : Option URL → String
  | none => ""
  | some u =>
    let enc := encodeQuery (sanitizeQuery u.query)
    if enc = "" then u.base else u.base ++ "?" ++ enc

/-- The concrete URL of the spec scenario:
`https://fw/api?apikey=abc123&name=test`. -/
def urlC9 : URL :=
  { base := "https://fw/api"
    query := [("apikey", ["abc123"]), ("name", ["test"])] }

/-- C9: `SanitizeURL` replaces the values of every query parameter
whose lower-cased name is in the fixed list `apikey`, `password`,
`token`, `key` with `"REDACTED"` and leaves the other parameters
untouched (position by position), and on the URL
`https://fw/api?apikey=abc123&name=test` it produces a string that
contains `apikey=REDACTED` and does not contain `abc123`.  The
operation takes no redacted-key-set input at all: it depends only on
the fixed list. -/
theorem sanitize_url_fixed_list (u : URL) :
    (∀ i : Nat,
      (sanitizeQuery u.query)[i]? =
        (u.query[i]?).map (fun kv =>
          if toLowerStr kv.1 ∈ sanitizedParamNames then (kv.1, ["REDACTED"]) else kv)) ∧
    SanitizeURL none = "" ∧
    SanitizeURL (some urlC9) = "https://fw/api?apikey=REDACTED&name=test" ∧
    containsSub (SanitizeURL (some urlC9)) "apikey=REDACTED" = true ∧
    containsSub (SanitizeURL (some urlC9)) "abc123" = false := by
  refine ⟨?_, rfl, by decide, by decide, by decide⟩
  intro i
  simp [sanitizeQuery, List.getElem?_map]
